import Mathlib

/-
Shallow embedding of `mentoring/light_children.py`:

* the typed attribute store (`LightChildField` and its subclasses
  `String`, `Integer`, `Boolean`, `Float`, `List`),
* the per-student persistence layer of `LightChild`
  (`save`, `load_student_data`, `get_lightchild_model_object`,
  the lazy `student_data` property),
* the XML-driven tree builder of `LightChildrenMixin`
  (`init_block_from_node`, `add_node_as_child`,
  `load_children_from_xml_content`).

Python run-time values are modelled by `PyVal` (floats as rationals).
The persisted-row store (the `LightChild` Django model from `models.py`,
whose source is not part of this module) is modelled from the spec as a
table of text blobs keyed by qualified name, with get-or-create and an
explicit row save.
-/

set_option autoImplicit false

namespace LightChildren

/-- Python run-time values, as far as this module manipulates them:
`None`, booleans, ints, floats (modelled as rationals), strings,
lists and dicts (dicts as insertion-ordered association lists). -/
inductive PyVal where
  | none
  | bool (b : Bool)
  | int (n : Int)
  | float (q : Rat)
  | str (s : String)
  | list (l : List PyVal)
  | dict (m : List (String × PyVal))
deriving Repr

/-- Python truthiness for the values above (`bool(v)`). -/
def pyTruthy : PyVal → Bool
  | .none => false
  | .bool b => b
  | .int n => n != 0
  | .float q => q != 0
  | .str s => s != ""
  | .list l => !l.isEmpty
  | .dict m => !m.isEmpty

mutual

/-- Python `==` on the values above: numeric kinds (bool/int/float) compare
by numeric value, strings by content, lists element-wise, and values of
unrelated types are unequal.  (Dict equality is modelled structurally; the
only `==`/`!=` in the embedded code compares a `str` with a `dict`, where
both models agree: such a comparison is always unequal.) -/
def pyEq : PyVal → PyVal → Bool
  | .none, .none => true
  | .bool a, .bool b => a == b
  | .bool a, .int b => (if a then (1 : Int) else 0) == b
  | .int a, .bool b => a == (if b then (1 : Int) else 0)
  | .bool a, .float b => (if a then (1 : Rat) else 0) == b
  | .float a, .bool b => a == (if b then (1 : Rat) else 0)
  | .int a, .int b => a == b
  | .int a, .float b => ((a : Rat)) == b
  | .float a, .int b => a == ((b : Rat))
  | .float a, .float b => a == b
  | .str a, .str b => a == b
  | .list a, .list b => pyEqList a b
  | .dict a, .dict b => pyEqPairs a b
  | _, _ => false

/-- Element-wise list equality using `pyEq`. -/
def pyEqList : List PyVal → List PyVal → Bool
  | [], [] => true
  | a :: xs, b :: ys => pyEq a b && pyEqList xs ys
  | _, _ => false

/-- Pairwise dict-entry equality using `pyEq`. -/
def pyEqPairs : List (String × PyVal) → List (String × PyVal) → Bool
  | [], [] => true
  | (k1, v1) :: xs, (k2, v2) :: ys => k1 == k2 && pyEq v1 v2 && pyEqPairs xs ys
  | _, _ => false

end

/-- The whitespace characters Python `str.strip()` removes. -/
def isPySpace (c : Char) : Bool :=
  c == ' ' || c == '\t' || c == '\n' || c == '\r' || c == Char.ofNat 11 || c == Char.ofNat 12

/-- Python `str.strip()`: whitespace removed from both ends. -/
def pyStrip (s : String) : String :=
  String.mk (((s.toList.dropWhile isPySpace).reverse.dropWhile isPySpace).reverse)

/-- Python `str.lower()` (ASCII case folding, which covers this module's
inputs). -/
def pyLower (s : String) : String :=
  String.mk (s.toList.map (fun c =>
    if 65 ≤ c.toNat && c.toNat ≤ 90 then Char.ofNat (c.toNat + 32) else c))

/-- Value of a nonempty all-digit character list, or `none` otherwise. -/
def digitsToNat : List Char → Option Nat
  | [] => Option.none
  | cs =>
    if cs.all Char.isDigit then
      some (cs.foldl (fun a c => a * 10 + (c.toNat - 48)) 0)
    else
      Option.none

/-- Python `int(s)` on a string: strip whitespace, optional sign, base-10
digits; anything else raises `ValueError` (here: `none`). -/
def pyStrToInt (s : String) : Option Int :=
  match (pyStrip s).toList with
  | '-' :: rest => (digitsToNat rest).map (fun n => -(n : Int))
  | '+' :: rest => (digitsToNat rest).map (fun n => (n : Int))
  | cs => (digitsToNat cs).map (fun n => (n : Int))

/-- Numeric value of a digit list (0 for the empty list). -/
def digitsVal (cs : List Char) : Nat :=
  cs.foldl (fun a c => a * 10 + (c.toNat - 48)) 0

/-- Python `float(s)` on a string: strip whitespace, optional sign, decimal
digits with optional fraction and exponent.  (The special texts `inf` and
`nan` are outside this model; floats are modelled as exact rationals.) -/
def pyStrToFloat (s : String) : Option Rat :=
  let cs := (pyStrip s).toList
  let (sgn, cs1) : Rat × List Char :=
    match cs with
    | '-' :: r => (-1, r)
    | '+' :: r => (1, r)
    | r => (1, r)
  let ip := cs1.takeWhile Char.isDigit
  let cs2 := cs1.dropWhile Char.isDigit
  let (hasDot, fp, cs3) : Bool × List Char × List Char :=
    match cs2 with
    | '.' :: r => (true, r.takeWhile Char.isDigit, r.dropWhile Char.isDigit)
    | r => (false, [], r)
  let (hasExp, expOk, expVal, cs4) : Bool × Bool × Int × List Char :=
    match cs3 with
    | 'e' :: '-' :: r => (true, (r.takeWhile Char.isDigit) ≠ [] && (r.dropWhile Char.isDigit) = [],
        -(digitsVal (r.takeWhile Char.isDigit) : Int), r.dropWhile Char.isDigit)
    | 'E' :: '-' :: r => (true, (r.takeWhile Char.isDigit) ≠ [] && (r.dropWhile Char.isDigit) = [],
        -(digitsVal (r.takeWhile Char.isDigit) : Int), r.dropWhile Char.isDigit)
    | 'e' :: '+' :: r => (true, (r.takeWhile Char.isDigit) ≠ [] && (r.dropWhile Char.isDigit) = [],
        (digitsVal (r.takeWhile Char.isDigit) : Int), r.dropWhile Char.isDigit)
    | 'E' :: '+' :: r => (true, (r.takeWhile Char.isDigit) ≠ [] && (r.dropWhile Char.isDigit) = [],
        (digitsVal (r.takeWhile Char.isDigit) : Int), r.dropWhile Char.isDigit)
    | 'e' :: r => (true, (r.takeWhile Char.isDigit) ≠ [] && (r.dropWhile Char.isDigit) = [],
        (digitsVal (r.takeWhile Char.isDigit) : Int), r.dropWhile Char.isDigit)
    | 'E' :: r => (true, (r.takeWhile Char.isDigit) ≠ [] && (r.dropWhile Char.isDigit) = [],
        (digitsVal (r.takeWhile Char.isDigit) : Int), r.dropWhile Char.isDigit)
    | r => (false, true, 0, r)
  if (ip = [] && fp = []) || (hasDot = false && hasExp = false && ip = []) then Option.none
  else if cs4 ≠ [] then Option.none
  else if hasExp && !expOk then Option.none
  else
    let base : Rat := (digitsVal ip : Rat) + (digitsVal fp : Rat) / ((10 : Rat) ^ fp.length)
    some (sgn * base * (10 : Rat) ^ expVal)

/-- Python `int(x)` truncation of a rational toward zero. -/
def ratTruncZ (q : Rat) : Int :=
  if 0 ≤ q.num then Int.ofNat (q.num.toNat / q.den)
  else -Int.ofNat (q.num.natAbs / q.den)

/-- Python `int(value)`: identity on ints, bools become 0/1, floats truncate
toward zero, strings are parsed; anything else (None, list, dict) raises
`TypeError` (here: `none`). -/
def pyIntConv : PyVal → Option Int
  | .int n => some n
  | .bool b => some (if b then 1 else 0)
  | .float q => some (ratTruncZ q)
  | .str s => pyStrToInt s
  | _ => Option.none

/-- Python `float(value)`: floats and ints embed, bools become 0/1, strings
are parsed; anything else raises `TypeError` (here: `none`). -/
def pyFloatConv : PyVal → Option Rat
  | .float q => some q
  | .int n => some (n : Rat)
  | .bool b => some (if b then 1 else 0)
  | .str s => pyStrToFloat s
  | _ => Option.none

/-- The double-quote character. -/
def qChar : Char := Char.ofNat 34

/-- The opening-brace character. -/
def lbChar : Char := Char.ofNat 123

/-- The closing-brace character. -/
def rbChar : Char := Char.ofNat 125

/-- One character of a JSON string literal, escaped as `json.dumps` does
(quotes, backslashes and the common control characters). -/
def escChar (c : Char) : String :=
  if c == qChar then "\\" ++ String.singleton qChar
  else if c == '\\' then "\\\\"
  else if c == '\n' then "\\n"
  else if c == '\t' then "\\t"
  else if c == '\r' then "\\r"
  else String.singleton c

/-- JSON string-literal escaping. -/
def jsonEscape (s : String) : String :=
  s.toList.foldl (fun acc c => acc ++ escChar c) ""

/-- Decimal digits of `r / d` (with `r < d`), truncated to `fuel` places;
exact whenever the denominator divides a power of ten, which covers every
float value arising in this development. -/
def fracDigits : Nat → Nat → Nat → String
  | 0, _, _ => ""
  | _ + 1, 0, _ => ""
  | fuel + 1, r, d =>
    let r10 := r * 10
    toString (r10 / d) ++ fracDigits fuel (r10 % d) d

/-- Text of a float as `json.dumps`/`repr` would print it (integral floats
print with a trailing `.0`, as in Python). -/
def floatRepr (q : Rat) : String :=
  let sgn := if q.num < 0 then "-" else ""
  let na := q.num.natAbs
  let ip := na / q.den
  let r := na % q.den
  if r == 0 then sgn ++ toString ip ++ ".0"
  else sgn ++ toString ip ++ "." ++ fracDigits 40 r q.den

mutual

/-- `json.dumps` with its default separators. -/
def jsonDumps : PyVal → String
  | .none => "null"
  | .bool b => if b then "true" else "false"
  | .int n => toString n
  | .float q => floatRepr q
  | .str s => String.singleton qChar ++ jsonEscape s ++ String.singleton qChar
  | .list l => "[" ++ jsonDumpsList l ++ "]"
  | .dict m => String.singleton lbChar ++ jsonDumpsPairs m ++ String.singleton rbChar

/-- Comma-separated list items for `jsonDumps`. -/
def jsonDumpsList : List PyVal → String
  | [] => ""
  | [v] => jsonDumps v
  | v :: rest => jsonDumps v ++ ", " ++ jsonDumpsList rest

/-- Comma-separated dict members for `jsonDumps`. -/
def jsonDumpsPairs : List (String × PyVal) → String
  | [] => ""
  | [(k, v)] =>
    String.singleton qChar ++ jsonEscape k ++ String.singleton qChar ++ ": " ++ jsonDumps v
  | (k, v) :: rest =>
    String.singleton qChar ++ jsonEscape k ++ String.singleton qChar ++ ": " ++ jsonDumps v
      ++ ", " ++ jsonDumpsPairs rest

end

/-- Skip JSON whitespace. -/
def skipWs : List Char → List Char
  | c :: r => if c == ' ' || c == '\n' || c == '\t' || c == '\r' then skipWs r else c :: r
  | [] => []

/-- Body of a JSON string literal (the characters after the opening quote),
with the escapes produced by `jsonEscape` plus the remaining single-character
JSON escapes.  Returns the decoded string and the input after the closing
quote. -/
def pStringBody : List Char → Option (String × List Char)
  | [] => Option.none
  | c :: r =>
    if c == qChar then some ("", r)
    else if c == '\\' then
      match r with
      | [] => Option.none
      | e :: r2 =>
        let dec : Option Char :=
          if e == qChar then some qChar
          else if e == '\\' then some '\\'
          else if e == '/' then some '/'
          else if e == 'n' then some '\n'
          else if e == 't' then some '\t'
          else if e == 'r' then some '\r'
          else if e == 'b' then some (Char.ofNat 8)
          else if e == 'f' then some (Char.ofNat 12)
          else Option.none
        match dec with
        | some ch => (pStringBody r2).map (fun p => (String.singleton ch ++ p.1, p.2))
        | _ => Option.none
    else (pStringBody r).map (fun p => (String.singleton c ++ p.1, p.2))

/-- Characters that may belong to a JSON number token. -/
def isNumChar (c : Char) : Bool :=
  c.isDigit || c == '-' || c == '+' || c == '.' || c == 'e' || c == 'E'

/-- Parse a JSON number token: an int unless it carries a fraction or an
exponent, matching Python's `int` versus `float` decoding. -/
def jsonNumOfToken (cs : List Char) : Option PyVal :=
  if cs = [] then Option.none
  else if cs.any (fun c => c == '.' || c == 'e' || c == 'E') then
    (pyStrToFloat (String.mk cs)).map PyVal.float
  else
    (pyStrToInt (String.mk cs)).map PyVal.int

/-- Drop an expected literal character sequence. -/
def dropLit : List Char → List Char → Option (List Char)
  | [], cs => some cs
  | l :: ls, c :: cs => if c == l then dropLit ls cs else Option.none
  | _ :: _, [] => Option.none

mutual

/-- Fueled recursive-descent JSON value parser (fuel bounds nesting and
member count; `jsonParse` supplies enough for any input). -/
def pVal : Nat → List Char → Option (PyVal × List Char)
  | 0, _ => Option.none
  | f + 1, cs =>
    match skipWs cs with
    | [] => Option.none
    | c :: r =>
      if c == qChar then (pStringBody r).map (fun p => (PyVal.str p.1, p.2))
      else if c == lbChar then
        match skipWs r with
        | c2 :: r2 => if c2 == rbChar then some (PyVal.dict [], r2) else pMembers f (c2 :: r2) []
        | [] => Option.none
      else if c == '[' then
        match skipWs r with
        | c2 :: r2 => if c2 == ']' then some (PyVal.list [], r2) else pItems f (c2 :: r2) []
        | [] => Option.none
      else if c == 't' then (dropLit ['r', 'u', 'e'] r).map (fun rr => (PyVal.bool true, rr))
      else if c == 'f' then (dropLit ['a', 'l', 's', 'e'] r).map (fun rr => (PyVal.bool false, rr))
      else if c == 'n' then (dropLit ['u', 'l', 'l'] r).map (fun rr => (PyVal.none, rr))
      else if isNumChar c then
        let tok := (c :: r).takeWhile isNumChar
        (jsonNumOfToken tok).map (fun v => (v, (c :: r).dropWhile isNumChar))
      else Option.none
termination_by structural fuel => fuel

/-- Parse the members of a JSON object (after the opening brace, first
member not yet consumed). -/
def pMembers : Nat → List Char → List (String × PyVal) → Option (PyVal × List Char)
  | 0, _, _ => Option.none
  | f + 1, cs, acc =>
    match skipWs cs with
    | c :: r =>
      if c == qChar then
        match pStringBody r with
        | some (k, r2) =>
          match skipWs r2 with
          | ':' :: r3 =>
            match pVal f r3 with
            | some (v, r4) =>
              match skipWs r4 with
              | ',' :: r5 => pMembers f r5 (acc ++ [(k, v)])
              | c2 :: r5 =>
                if c2 == rbChar then some (PyVal.dict (acc ++ [(k, v)]), r5) else Option.none
              | [] => Option.none
            | _ => Option.none
          | _ => Option.none
        | _ => Option.none
      else Option.none
    | [] => Option.none
termination_by structural fuel => fuel

/-- Parse the items of a JSON array (after the opening bracket, first item
not yet consumed). -/
def pItems : Nat → List Char → List PyVal → Option (PyVal × List Char)
  | 0, _, _ => Option.none
  | f + 1, cs, acc =>
    match pVal f cs with
    | some (v, r) =>
      match skipWs r with
      | ',' :: r2 => pItems f r2 (acc ++ [v])
      | ']' :: r2 => some (PyVal.list (acc ++ [v]), r2)
      | _ => Option.none
    | _ => Option.none
termination_by structural fuel => fuel

end

/-- Parse a whole JSON text (`json.loads` on a string), rejecting trailing
garbage. -/
def jsonParse (s : String) : Option PyVal :=
  match pVal (s.length + 2) s.toList with
  | some (v, rest) => if (skipWs rest).isEmpty then some v else Option.none
  | _ => Option.none

/-- The Python exceptions this module raises or handles. -/
inductive PyErr where
  | typeErr
  | valueErr
  | attrErr
  | lookupErr
deriving DecidableEq, Repr

/-- `json.loads(value)`: decodes a `str`, raising `ValueError` on malformed
text; any non-text argument (in particular a `dict`) raises `TypeError`. -/
def jsonLoads : PyVal → Except PyErr PyVal
  | .str s =>
    match jsonParse s with
    | some v => .ok v
    | _ => .error .valueErr
  | _ => .error .typeErr

/-- The concrete `LightChildField` subclasses of the module. -/
inductive FieldKind where
  | kString
  | kInteger
  | kBoolean
  | kFloat
  | kList
deriving DecidableEq, Repr

/-- A field declaration on a node type: its attribute name, its kind, and
the (possibly overridden, stored uncoerced) declaration-time default. -/
structure FieldDecl where
  fname : String
  kind : FieldKind
  dflt : PyVal
deriving Repr

/-- The write path of each descriptor (`__set__`).  The base class and its
`String`/`List` subclasses store the value verbatim; `Integer.__set__` stores
`int(value)` or the literal `0` on `TypeError`/`ValueError`; `Boolean.__set__`
lowercases textual values and compares with `"true"`, passing non-text values
through unchanged; `Float.__set__` stores `float(value)` or the literal `0`
(a Python int, as in the source) on failure. -/
def coerceWrite : FieldKind → PyVal → PyVal
  | .kInteger, v =>
    match pyIntConv v with
    | some n => .int n
    | _ => .int 0
  | .kBoolean, v =>
    match v with
    | .str s => .bool (pyLower s == "true")
    | w => w
  | .kFloat, v =>
    match pyFloatConv v with
    | some q => .float q
    | _ => .int 0
  | _, v => v

/-- The `student_data` attribute of a `LightChild` instance: either the lazy
property has not been evaluated yet, or it holds a cached/assigned value
(the row's text after lazy evaluation, or the dict assigned by `save()`). -/
inductive SDAttr where
  | lazyUneval
  | val (v : PyVal)
deriving Repr

/-- Per-instance state of one `LightChild` node (without its children):
`name` (the identity, with `""` for unset/falsy), the container's
`url_name`, the class-level `get_fields_to_save()` list, the descriptor
store entries for this instance, the `student_data` attribute, and the
`_student_data_loaded` flag.  `loadAttempts` is instrumentation counting
invocations of `load_student_data`, used only to state the load-at-most-once
properties; it is not part of the Python state. -/
structure LCCore where
  name : String
  containerUrlName : String
  fieldsToSave : List FieldDecl
  fieldData : List (String × PyVal)
  studentDataAttr : SDAttr
  sdLoaded : Bool
  loadAttempts : Nat
deriving Repr

/-- Modelled from the spec: the persisted-row store (the `LightChild` Django
model of `models.py`, whose source is not part of this module).  Rows are
keyed by qualified name — the student and course ids are fixed ambient
values here — and hold one text blob each; a freshly created row holds the
empty blob.  `writes` counts explicit row saves (`Row.save()` calls); the
insert performed by get-or-create is not a row write in that sense. -/
structure DB where
  rows : List (String × String)
  writes : Nat
deriving Repr

/-- Insertion-ordered association-list update (Python dict assignment:
overwrite in place, append new keys at the end). -/
def alUpdate {α : Type} (k : String) (v : α) : List (String × α) → List (String × α)
  | [] => [(k, v)]
  | (k2, w) :: r => if k2 == k then (k, v) :: r else (k2, w) :: alUpdate k v r

/-- Modelled from the spec: `objects.get_or_create` on the row store. -/
def getOrCreate (db : DB) (qn : String) : String × DB :=
  match db.rows.lookup qn with
  | some s => (s, db)
  | _ => ("", { db with rows := alUpdate qn "" db.rows })

/-- The qualified row name `"{container url_name}-{name}"`. -/
def qualifiedName (c : LCCore) (nm : String) : String :=
  c.containerUrlName ++ "-" ++ nm

/-- Reading `self.student_data` (the lazy property): returns the cached or
assigned value if present; otherwise returns `''` for a node without a name,
or fetches (get-or-creating) the row's text, caching the result. -/
def studentDataGet (c : LCCore) (db : DB) : PyVal × LCCore × DB :=
  match c.studentDataAttr with
  | .val v => (v, c, db)
  | .lazyUneval =>
    if c.name == "" then
      (.str "", { c with studentDataAttr := .val (.str "") }, db)
    else
      let (s, db2) := getOrCreate db (qualifiedName c c.name)
      (.str s, { c with studentDataAttr := .val (.str s) }, db2)

/-- The per-student data a load attempt on node `c` observes against store
`db`: the cached or assigned `student_data` value when the lazy property has
already run, and otherwise the row text the lazy fetch would return — the
empty blob for an unset identity or an absent row.  This is exactly the
value component of `studentDataGet`. -/
def observedSD (c : LCCore) (db : DB) : PyVal :=
  match c.studentDataAttr with
  | .val v => v
  | .lazyUneval =>
    if c.name == "" then .str ""
    else .str ((db.rows.lookup (qualifiedName c c.name)).getD "")

/-- Node `c` holds no pending persisted value for field `fld` against store
`db`: its per-student state is already merged, or it declares no persisted
fields, or the student data a load would observe is falsy (unset identity,
absent or empty row, empty cached value), or that data decodes to a mapping
that lacks the field.  In each of these situations `load_student_data`
leaves the field's stored entry untouched. -/
def noPendingFor (fld : FieldDecl) (c : LCCore) (db : DB) : Prop :=
  c.sdLoaded = true ∨ c.fieldsToSave = [] ∨ pyTruthy (observedSD c db) = false ∨
  ∃ m, jsonLoads (observedSD c db) = .ok (.dict m) ∧ m.lookup fld.fname = Option.none

/-- The merge loop of `load_student_data`: for each declared field present
in the decoded mapping, assign it through the field's descriptor (hence
through its write coercion). -/
def mergeFields (fields : List FieldDecl) (m : List (String × PyVal)) (c : LCCore) : LCCore :=
  match fields with
  | [] => c
  | fld :: rest =>
    match m.lookup fld.fname with
    | some v =>
      mergeFields rest m
        { c with fieldData := alUpdate fld.fname (coerceWrite fld.kind v) c.fieldData }
    | _ => mergeFields rest m c

/-- `LightChild.load_student_data`: no-op once `_student_data_loaded` is set;
returns early when there are no declared fields or `student_data` is falsy;
otherwise decodes `student_data` with `json.loads` (which raises `TypeError`
when the attribute holds a dict rather than text), merges the declared
fields, and sets the flag.  A decoded non-dict value makes the following
membership test / subscript raise; that failure is modelled as `TypeError`. -/
def loadStudentData (c0 : LCCore) (db : DB) : Option PyErr × LCCore × DB :=
  let c := { c0 with loadAttempts := c0.loadAttempts + 1 }
  if c.sdLoaded then (Option.none, c, db)
  else if c.fieldsToSave.isEmpty then (Option.none, c, db)
  else
    let r := studentDataGet c db
    if !pyTruthy r.1 then (Option.none, r.2.1, r.2.2)
    else
      match jsonLoads r.1 with
      | .error e => (some e, r.2.1, r.2.2)
      | .ok (.dict m) =>
        let c3 := mergeFields r.2.1.fieldsToSave m r.2.1
        (Option.none, { c3 with sdLoaded := true }, r.2.2)
      | .ok _ => (some .typeErr, r.2.1, r.2.2)

/-- The read path of a descriptor (`LightChildField.__get__`): trigger
`load_student_data`, then return this instance's stored value or the
declaration default.  A raise during the load propagates out of the read;
state mutated before the raise persists, as in Python. -/
def fieldGet (fld : FieldDecl) (c : LCCore) (db : DB) : Except PyErr PyVal × LCCore × DB :=
  let r := loadStudentData c db
  match r.1 with
  | some e => (.error e, r.2.1, r.2.2)
  | _ => (.ok ((r.2.1.fieldData.lookup fld.fname).getD fld.dflt), r.2.1, r.2.2)

/-- Writing a field through its descriptor (`__set__`): pure coercion and
store; never touches the database and never triggers a load. -/
def writeField (fld : FieldDecl) (v : PyVal) (c : LCCore) : LCCore :=
  { c with fieldData := alUpdate fld.fname (coerceWrite fld.kind v) c.fieldData }

/-- `LightChild.get_lightchild_model_object`: defaults the name argument to
`self.name`, raises `ValueError` when both are unset, and otherwise
get-or-creates the row under the qualified name, returning it (modelled as
the qualified name together with the row's current text). -/
def getLightchildModelObject (c : LCCore) (db : DB) (nameArg : String) :
    Except PyErr (String × String) × DB :=
  let nm := if nameArg == "" then c.name else nameArg
  if nm == "" then (.error .valueErr, db)
  else
    let qn := qualifiedName c nm
    let (content, db2) := getOrCreate db qn
    (.ok (qn, content), db2)

/-- The dict currently held by the `student_data` attribute.  Inside
`save()` the attribute always holds a dict — `save()` has just assigned one
and nothing on the read path replaces it — so the fallback arm is
unreachable there. -/
def sdDict : SDAttr → List (String × PyVal)
  | .val (.dict mm) => mm
  | _ => []

/-- The field-collection loop of `save()`:
`for field in self.get_fields_to_save(): self.student_data[field] = getattr(self, field)`.
Each `getattr` goes through the descriptor read path (and hence through
`load_student_data`); the read value is then stored into the dict held in
the `student_data` attribute. -/
def saveCollect (fields : List FieldDecl) (c : LCCore) (db : DB) : Option PyErr × LCCore × DB :=
  match fields with
  | [] => (Option.none, c, db)
  | fld :: rest =>
    let r := fieldGet fld c db
    match r.1 with
    | .error e => (some e, r.2.1, r.2.2)
    | .ok v =>
      saveCollect rest
        { r.2.1 with
          studentDataAttr := .val (.dict (alUpdate fld.fname v (sdDict r.2.1.studentDataAttr))) }
        r.2.2

/-- The per-node body of `LightChild.save` (everything after the child
cascade): assign `self.student_data = {}`, collect the declared field values
into it, and — only when the identity is set — fetch the row and write it
when `lightchild_data.student_data != self.student_data` (the row's text
compared, with Python `!=`, against the dict). -/
def saveOne (c0 : LCCore) (db : DB) : Option PyErr × LCCore × DB :=
  let c := { c0 with studentDataAttr := .val (.dict []) }
  let r := saveCollect c.fieldsToSave c db
  match r.1 with
  | some e => (some e, r.2.1, r.2.2)
  | _ =>
    let c2 := r.2.1
    let db2 := r.2.2
    if c2.name == "" then (Option.none, c2, db2)
    else
      let m := sdDict c2.studentDataAttr
      let g := getOrCreate db2 (qualifiedName c2 c2.name)
      if pyEq (.str g.1) (.dict m) then (Option.none, c2, g.2)
      else
        (Option.none, c2,
          { rows := alUpdate (qualifiedName c2 c2.name) (jsonDumps (.dict m)) g.2.rows,
            writes := g.2.writes + 1 })

/-- A `LightChild` node together with its `light_children`. -/
inductive LCTree where
  | node (core : LCCore) (children : List LCTree)

/-- The core state of the root node. -/
def LCTree.core : LCTree → LCCore
  | .node c _ => c

mutual

/-- `LightChild.save`: save all children first (in order, a raise aborting
the walk), then run the node's own save body. -/
def saveTree : LCTree → DB → Option PyErr × LCTree × DB
  | .node c cs, db =>
    match saveTreeList cs db with
    | (some e, cs2, db2) => (some e, .node c cs2, db2)
    | (_, cs2, db2) =>
      match saveOne c db2 with
      | (e, c2, db3) => (e, .node c2 cs2, db3)

/-- Child-by-child save cascade. -/
def saveTreeList : List LCTree → DB → Option PyErr × List LCTree × DB
  | [], db => (Option.none, [], db)
  | t :: r, db =>
    match saveTree t db with
    | (some e, t2, db2) => (some e, t2 :: r, db2)
    | (_, t2, db2) =>
      match saveTreeList r db2 with
      | (e, r2, db3) => (e, t2 :: r2, db3)

end

/-- A markup node as `lxml` iterates it: an element (with its attributes,
its inline text — `""` standing for absent text — and its child nodes in
document order), or a comment node. -/
inductive XmlNode where
  | elem (tag : String) (attrs : List (String × String)) (text : String) (children : List XmlNode)
  | comment (s : String)

/-- Whether a markup node is a comment (`xml_child.tag is etree.Comment`). -/
def XmlNode.isComment : XmlNode → Bool
  | .comment _ => true
  | _ => false

/-- The ambient behavior tree building depends on: whether a tag resolves in
the plugin registry (`LightChild.load_class`, raising `LookupError` when
not), and the outcome of `setattr(block, name, value)` on a block of a given
tag — `none` for success, or the exception the assignment raises. -/
structure BuildEnv where
  classKnown : String → Bool
  setAttr : String → String → String → Option PyErr

/-- The attribute loop of `init_block_from_node` (lines 102-109): each
attribute is assigned with `setattr`; an `AttributeError` is swallowed only
for the reserved name `url_name` and re-raised for any other name, and any
exception other than `AttributeError` propagates for every name. -/
def applyAttrs (setA : String → String → Option PyErr) : List (String × String) → Option PyErr
  | [] => Option.none
  | (nm, v) :: rest =>
    match setA nm v with
    | Option.none => applyAttrs setA rest
    | some .attrErr => if nm == "url_name" then applyAttrs setA rest else some .attrErr
    | some e => some e

/-- A built light child: its assigned identity, its tag, its captured
trimmed inline text (`""` when not set), and its own built children. -/
inductive BuiltNode where
  | mk (name tag content : String) (children : List BuiltNode)

/-- The identity of a built node. -/
def BuiltNode.name : BuiltNode → String
  | .mk n _ _ _ => n

/-- The text-capture step of `add_node_as_child`: the trimmed inline text
when both the raw and the trimmed text are nonempty, `""` otherwise. -/
def contentOf (txt : String) : String :=
  if txt == "" then ""
  else if pyStrip txt == "" then ""
  else pyStrip txt

/-- The child loop of `init_block_from_node` together with
`add_node_as_child`, starting at enumeration index `i`: `enumerate(node)`
assigns every markup child — comments included — an index; a comment makes
`add_node_as_child` return before creating a child; an element resolves its
class (raising `LookupError` if unknown), receives the identity
`{parent}_{index}`, builds its own subtree, applies its attributes, captures
its text, and is appended. -/
def addChildrenE (env : BuildEnv) (parentName : String) (ns : List XmlNode) (i : Nat) :
    Except PyErr (List BuiltNode) :=
  match ns with
  | [] => .ok []
  | .comment _ :: rest => addChildrenE env parentName rest (i + 1)
  | .elem tg attrs txt cs :: rest =>
    if env.classKnown tg then
      let childName := parentName ++ "_" ++ toString i
      match addChildrenE env childName cs 0 with
      | .error e => .error e
      | .ok kids =>
        match applyAttrs (env.setAttr tg) attrs with
        | some e => .error e
        | _ =>
          match addChildrenE env parentName rest (i + 1) with
          | .error e => .error e
          | .ok others => .ok (.mk childName tg (contentOf txt) kids :: others)
    else .error .lookupErr
termination_by sizeOf ns
decreasing_by all_goals simp_wf <;> omega

/-- `init_block_from_node` on a block: build its light children from the
markup node, then apply the markup node's own attributes to the block. -/
def initBlockFromNode (env : BuildEnv) (selfTag selfName : String) (root : XmlNode) :
    Except PyErr (List BuiltNode) :=
  match root with
  | .comment _ => .ok []
  | .elem _ rootAttrs _ cs =>
    match addChildrenE env selfName cs 0 with
    | .error e => .error e
    | .ok kids =>
      match applyAttrs (env.setAttr selfTag) rootAttrs with
      | some e => .error e
      | _ => .ok kids

mutual

/-- Comment stripping as performed by the `remove_comments=True` parser. -/
def stripComments : XmlNode → XmlNode
  | .comment s => .comment s
  | .elem t a x cs => .elem t a x (stripCommentsList cs)

/-- Comment stripping over a child list. -/
def stripCommentsList : List XmlNode → List XmlNode
  | [] => []
  | .comment _ :: r => stripCommentsList r
  | n :: r => stripComments n :: stripCommentsList r

end

/-- The `xml_content` attribute of a container, as tested by the guard of
`load_children_from_xml_content`: the attribute may be missing, hold the
empty (falsy) string, hold a callable placeholder, or hold actual stored
markup text — represented up to parsing as `.stored root`, the parse tree of
a nonempty well-formed markup string.  (Malformed nonempty text, whose parse
raises, is outside this model.) -/
inductive XCVal where
  | missing
  | blank
  | callableVal
  | stored (root : XmlNode)

/-- The no-content guard of `load_children_from_xml_content`:
`not hasattr(self, 'xml_content') or not self.xml_content or callable(self.xml_content)`. -/
def xcNoContent : XCVal → Bool
  | .missing => true
  | .blank => true
  | .callableVal => true
  | .stored _ => false

/-- A container (the host block of `LightChildrenMixin`): its own name and
tag, the stored markup, and its current light-children list. -/
structure ContainerState where
  cname : String
  ctag : String
  xmlContent : XCVal
  lightChildren : List BuiltNode

/-- `load_children_from_xml_content`: reset `light_children` to the empty
list, return if the no-content guard fires, and otherwise parse the stored
markup with comments stripped and rebuild the tree via
`init_block_from_node`. -/
def loadChildrenFromXmlContent (env : BuildEnv) (s : ContainerState) :
    Except PyErr ContainerState :=
  let s1 := { s with lightChildren := [] }
  if xcNoContent s1.xmlContent then .ok s1
  else
    match s1.xmlContent with
    | .stored root =>
      match initBlockFromNode env s1.ctag s1.cname (stripComments root) with
      | .error e => .error e
      | .ok kids => .ok { s1 with lightChildren := kids }
    | _ => .ok s1

/-- The per-node mapping `save()` builds: each declared field's name paired
with the value its read would produce from the descriptor store (stored
value, or the declaration default). -/
def collectVals (c : LCCore) : List (String × PyVal) :=
  c.fieldsToSave.map (fun fld => (fld.fname, (c.fieldData.lookup fld.fname).getD fld.dflt))

/-- Concrete fixture: an `Integer` field named `count` with default `0`. -/
def countFld : FieldDecl := ⟨"count", .kInteger, .int 0⟩

/-- Concrete fixture: a `Boolean` field named `flag` with default `False`. -/
def flagFld : FieldDecl := ⟨"flag", .kBoolean, .bool false⟩

/-- Concrete fixture: a freshly built node named `q_0` in container `unit1`
with one declared Integer field `count` holding `42`. -/
def cBase : LCCore :=
  { name := "q_0", containerUrlName := "unit1", fieldsToSave := [countFld],
    fieldData := [("count", PyVal.int 42)], studentDataAttr := .lazyUneval,
    sdLoaded := false, loadAttempts := 0 }

/-- Concrete fixture: an empty row store. -/
def dbEmpty : DB := { rows := [], writes := 0 }

/-- Concrete fixture: the node `cBase` with its identity unset. -/
def cNoName : LCCore := { cBase with name := "" }

/-- Concrete fixture: the node `cBase` with its per-student state already
loaded. -/
def cLoaded : LCCore := { cBase with sdLoaded := true }

/-- Concrete fixture: an `Integer` field named `a` with default `0`. -/
def aFld : FieldDecl := ⟨"a", .kInteger, .int 0⟩

/-- Concrete fixture: an `Integer` field named `b` with default `0`. -/
def bFld : FieldDecl := ⟨"b", .kInteger, .int 0⟩

/-- Concrete fixture: a freshly built node with two declared Integer fields
`a = 1` and `b = 2` (as assigned from markup attributes), state not yet
loaded. -/
def cTwoFields : LCCore :=
  { name := "unit1_0", containerUrlName := "unit1", fieldsToSave := [aFld, bFld],
    fieldData := [("a", PyVal.int 1), ("b", PyVal.int 2)], studentDataAttr := .lazyUneval,
    sdLoaded := false, loadAttempts := 0 }

/-- Concrete fixture: a node named `n_0` in container `u` with one declared
Integer field `count`, nothing written yet, state not loaded. -/
def cPending : LCCore :=
  { name := "n_0", containerUrlName := "u", fieldsToSave := [countFld],
    fieldData := [], studentDataAttr := .lazyUneval, sdLoaded := false, loadAttempts := 0 }

/-- Concrete fixture: a row store holding persisted state for `cPending`:
the row `u-n_0` holds the JSON text of the mapping `count = 7`. -/
def dbPending : DB :=
  { rows := [("u-n_0", jsonDumps (PyVal.dict [("count", PyVal.int 7)]))], writes := 0 }

/-- Concrete fixture: a build environment in which every tag resolves and
every attribute assignment succeeds. -/
def envAllOk : BuildEnv :=
  { classKnown := fun _ => true, setAttr := fun _ _ _ => Option.none }

/-- Concrete fixture: an attribute-assignment behavior under which assigning
`url_name` raises `TypeError` (not `AttributeError`) and every other
assignment succeeds. -/
def setAttrUrlTypeErr : String → String → Option PyErr :=
  fun nm _ => if nm == "url_name" then some PyErr.typeErr else Option.none

/-- Concrete fixture: an attribute-assignment behavior under which every
assignment raises `AttributeError`. -/
def setAttrAllAttrErr : String → String → Option PyErr :=
  fun _ _ => some PyErr.attrErr

/-- Concrete fixture: the node `cPending` with its lazy `student_data`
already evaluated to the row's JSON text `count = 7`. -/
def cPendingCached : LCCore :=
  { cPending with
    studentDataAttr := .val (.str (jsonDumps (PyVal.dict [("count", PyVal.int 7)]))) }

/-- Concrete fixture: a previously built light child. -/
def builtOld : BuiltNode := .mk "old_0" "t" "" []

/-- Concrete fixture: a container with stored markup (one comment and one
element child) and a stale previously built child list. -/
def contStored : ContainerState :=
  { cname := "cont", ctag := "mentoring",
    xmlContent := .stored
      (XmlNode.elem "mentoring" [] "" [XmlNode.comment "x", XmlNode.elem "a" [] "" []]),
    lightChildren := [builtOld] }

/-- Concrete fixture: a container whose stored markup is the empty string
but which still holds a previously built child list. -/
def contWithChild : ContainerState :=
  { cname := "cont", ctag := "mentoring", xmlContent := .blank, lightChildren := [builtOld] }

end LightChildren

namespace LightChildren

theorem lookup_cons_eq {α : Type} (a k : String) (v : α) (l : List (String × α)) :
    ((k, v) :: l).lookup a = if a = k then some v else l.lookup a := by
  rw [List.lookup_cons]
  by_cases h : a = k
  · rw [if_pos h, beq_iff_eq.mpr h]
  · rw [if_neg h, beq_eq_false_iff_ne.mpr h]

theorem alUpdate_lookup_self {α : Type} (k : String) (v : α) (l : List (String × α)) :
    (alUpdate k v l).lookup k = some v := by
  induction l with
  | nil => simp [alUpdate, lookup_cons_eq]
  | cons p r ih =>
    obtain ⟨k2, w⟩ := p
    by_cases h : k2 = k
    · simp [alUpdate, h, lookup_cons_eq]
    · rw [alUpdate, if_neg (by simpa using h), lookup_cons_eq,
        if_neg (fun hh => h hh.symm)]
      exact ih

theorem alUpdate_lookup_ne {α : Type} (k k2 : String) (v : α) (l : List (String × α))
    (h : k2 ≠ k) : (alUpdate k v l).lookup k2 = l.lookup k2 := by
  induction l with
  | nil => simp [alUpdate, lookup_cons_eq, h]
  | cons p r ih =>
    obtain ⟨k3, w⟩ := p
    by_cases h3 : k3 = k
    · subst h3
      rw [alUpdate, if_pos (by simp), lookup_cons_eq, lookup_cons_eq,
        if_neg h, if_neg h]
    · rw [alUpdate, if_neg (by simpa using h3), lookup_cons_eq, lookup_cons_eq]
      by_cases h2 : k2 = k3
      · rw [if_pos h2, if_pos h2]
      · rw [if_neg h2, if_neg h2]
        exact ih

theorem alUpdate_of_not_mem {α : Type} (k : String) (v : α) (l : List (String × α))
    (h : k ∉ l.map Prod.fst) : alUpdate k v l = l ++ [(k, v)] := by
  induction l with
  | nil => rfl
  | cons p r ih =>
    obtain ⟨k2, w⟩ := p
    simp only [List.map_cons, List.mem_cons] at h
    push_neg at h
    rw [alUpdate, if_neg (by simpa using fun hh : k2 = k => h.1 hh.symm)]
    simp [ih h.2]

theorem mergeFields_loadAttempts (fs : List FieldDecl) (m : List (String × PyVal)) (c : LCCore) :
    (mergeFields fs m c).loadAttempts = c.loadAttempts := by
  induction fs generalizing c with
  | nil => rfl
  | cons fld rest ih => simp only [mergeFields]; split <;> simp [ih]

theorem mergeFields_sdLoaded (fs : List FieldDecl) (m : List (String × PyVal)) (c : LCCore) :
    (mergeFields fs m c).sdLoaded = c.sdLoaded := by
  induction fs generalizing c with
  | nil => rfl
  | cons fld rest ih => simp only [mergeFields]; split <;> simp [ih]

theorem mergeFields_sdAttr (fs : List FieldDecl) (m : List (String × PyVal)) (c : LCCore) :
    (mergeFields fs m c).studentDataAttr = c.studentDataAttr := by
  induction fs generalizing c with
  | nil => rfl
  | cons fld rest ih => simp only [mergeFields]; split <;> simp [ih]

theorem studentDataGet_preserve (c : LCCore) (db : DB) :
    (studentDataGet c db).2.1.loadAttempts = c.loadAttempts ∧
    (studentDataGet c db).2.1.sdLoaded = c.sdLoaded ∧
    (studentDataGet c db).2.1.fieldData = c.fieldData ∧
    (studentDataGet c db).2.1.fieldsToSave = c.fieldsToSave := by
  unfold studentDataGet
  split
  · exact ⟨rfl, rfl, rfl, rfl⟩
  · split <;> exact ⟨rfl, rfl, rfl, rfl⟩

theorem loadStudentData_of_loaded (c : LCCore) (db : DB) (h : c.sdLoaded = true) :
    loadStudentData c db = (Option.none, { c with loadAttempts := c.loadAttempts + 1 }, db) := by
  unfold loadStudentData
  simp [h]

theorem loadStudentData_dictAttr (c : LCCore) (db : DB) (acc : List (String × PyVal))
    (hA : c.studentDataAttr = .val (.dict acc)) :
    loadStudentData c db =
      (if c.sdLoaded = true ∨ c.fieldsToSave.isEmpty = true ∨ acc.isEmpty = true
         then Option.none else some PyErr.typeErr,
       { c with loadAttempts := c.loadAttempts + 1 }, db) := by
  unfold loadStudentData studentDataGet
  by_cases h1 : c.sdLoaded <;> by_cases h2 : c.fieldsToSave.isEmpty <;>
    by_cases h3 : acc.isEmpty <;>
      simp [h1, h2, h3, hA, pyTruthy, jsonLoads]

theorem loadStudentData_loadAttempts (c : LCCore) (db : DB) :
    (loadStudentData c db).2.1.loadAttempts = c.loadAttempts + 1 := by
  unfold loadStudentData
  dsimp only
  split
  · rfl
  · split
    · rfl
    · split
      · exact (studentDataGet_preserve _ _).1
      · split
        · exact (studentDataGet_preserve _ _).1
        · simpa [mergeFields_loadAttempts] using (studentDataGet_preserve _ _).1
        · exact (studentDataGet_preserve _ _).1

theorem loadStudentData_cases (c : LCCore) (db : DB) :
    (loadStudentData c db).2.1.fieldData = c.fieldData ∨
    ((loadStudentData c db).2.1.sdLoaded = true ∧ c.sdLoaded = false) := by
  unfold loadStudentData
  dsimp only
  split
  · left; rfl
  next h1 =>
    split
    · left; rfl
    · split
      · left; exact (studentDataGet_preserve _ _).2.2.1
      · split
        · left; exact (studentDataGet_preserve _ _).2.2.1
        · right; exact ⟨rfl, by simpa using h1⟩
        · left; exact (studentDataGet_preserve _ _).2.2.1

theorem fieldGet_dictAttr (fld : FieldDecl) (c : LCCore) (db : DB)
    (acc : List (String × PyVal)) (hA : c.studentDataAttr = .val (.dict acc)) :
    fieldGet fld c db =
      (if c.sdLoaded = true ∨ c.fieldsToSave.isEmpty = true ∨ acc.isEmpty = true
         then .ok ((c.fieldData.lookup fld.fname).getD fld.dflt)
         else .error PyErr.typeErr,
       { c with loadAttempts := c.loadAttempts + 1 }, db) := by
  unfold fieldGet
  rw [loadStudentData_dictAttr c db acc hA]
  by_cases h : (c.sdLoaded = true ∨ c.fieldsToSave.isEmpty = true ∨ acc.isEmpty = true)
  · rw [if_pos h, if_pos h]
  · rw [if_neg h, if_neg h]

theorem saveCollect_invariant (fields : List FieldDecl) (c : LCCore) (db : DB)
    (acc : List (String × PyVal)) (hA : c.studentDataAttr = .val (.dict acc)) :
    (saveCollect fields c db).2.2 = db ∧
    (saveCollect fields c db).2.1.fieldData = c.fieldData ∧
    (saveCollect fields c db).2.1.name = c.name ∧
    (saveCollect fields c db).2.1.containerUrlName = c.containerUrlName ∧
    (saveCollect fields c db).2.1.fieldsToSave = c.fieldsToSave ∧
    (∃ acc2, (saveCollect fields c db).2.1.studentDataAttr = .val (.dict acc2)) ∧
    ((saveCollect fields c db).1 = Option.none ∨
      (saveCollect fields c db).1 = some PyErr.typeErr) := by
  induction fields generalizing c db acc with
  | nil => exact ⟨rfl, rfl, rfl, rfl, rfl, ⟨acc, hA⟩, Or.inl rfl⟩
  | cons fld rest ih =>
    have hfg := fieldGet_dictAttr fld c db acc hA
    by_cases h : (c.sdLoaded = true ∨ c.fieldsToSave.isEmpty = true ∨ acc.isEmpty = true)
    · rw [if_pos h] at hfg
      have hstep : saveCollect (fld :: rest) c db =
          saveCollect rest
            { c with
              loadAttempts := c.loadAttempts + 1
              studentDataAttr := .val (.dict (alUpdate fld.fname
                ((c.fieldData.lookup fld.fname).getD fld.dflt) acc)) } db := by
        simp only [saveCollect]
        rw [hfg]
        dsimp only
        rw [hA]
        rfl
      rw [hstep]
      exact ih _ db _ rfl
    · rw [if_neg h] at hfg
      have hstep : saveCollect (fld :: rest) c db =
          (some PyErr.typeErr, { c with loadAttempts := c.loadAttempts + 1 }, db) := by
        simp only [saveCollect]
        rw [hfg]
      rw [hstep]
      exact ⟨rfl, rfl, rfl, rfl, rfl, ⟨acc, hA⟩, Or.inr rfl⟩

theorem saveCollect_ok_attr (fields : List FieldDecl) (c : LCCore) (db : DB)
    (acc : List (String × PyVal)) (hA : c.studentDataAttr = .val (.dict acc))
    (hok : (saveCollect fields c db).1 = Option.none) :
    (saveCollect fields c db).2.1.studentDataAttr =
      .val (.dict (fields.foldl
        (fun a fld => alUpdate fld.fname ((c.fieldData.lookup fld.fname).getD fld.dflt) a)
        acc)) := by
  induction fields generalizing c db acc with
  | nil => simpa [saveCollect] using hA
  | cons fld rest ih =>
    have hfg := fieldGet_dictAttr fld c db acc hA
    by_cases h : (c.sdLoaded = true ∨ c.fieldsToSave.isEmpty = true ∨ acc.isEmpty = true)
    · rw [if_pos h] at hfg
      have hstep : saveCollect (fld :: rest) c db =
          saveCollect rest
            { c with
              loadAttempts := c.loadAttempts + 1
              studentDataAttr := .val (.dict (alUpdate fld.fname
                ((c.fieldData.lookup fld.fname).getD fld.dflt) acc)) } db := by
        simp only [saveCollect]
        rw [hfg]
        dsimp only
        rw [hA]
        rfl
      rw [hstep] at hok ⊢
      simpa using ih _ db _ rfl hok
    · rw [if_neg h] at hfg
      have hstep : saveCollect (fld :: rest) c db =
          (some PyErr.typeErr, { c with loadAttempts := c.loadAttempts + 1 }, db) := by
        simp only [saveCollect]
        rw [hfg]
      rw [hstep] at hok
      exact absurd hok (by simp)

theorem foldl_alUpdate_eq_map (fields : List FieldDecl) (fd : List (String × PyVal))
    (acc : List (String × PyVal))
    (hdisj : ∀ fld ∈ fields, fld.fname ∉ acc.map Prod.fst)
    (hnd : (fields.map FieldDecl.fname).Nodup) :
    fields.foldl (fun a fld => alUpdate fld.fname ((fd.lookup fld.fname).getD fld.dflt) a) acc
      = acc ++ fields.map (fun fld => (fld.fname, (fd.lookup fld.fname).getD fld.dflt)) := by
  induction fields generalizing acc with
  | nil => simp
  | cons fld rest ih =>
    simp only [List.foldl_cons, List.map_cons]
    rw [alUpdate_of_not_mem _ _ _ (hdisj fld (by simp))]
    rw [List.map_cons] at hnd
    have hnd2 := List.nodup_cons.mp hnd
    rw [ih _ ?_ hnd2.2]
    · simp
    · intro f hf
      simp only [List.map_append, List.mem_append, List.map_cons, List.map_nil,
        List.mem_singleton, not_or]
      refine ⟨hdisj f (List.mem_cons_of_mem _ hf), ?_⟩
      intro hEq
      exact hnd2.1 (hEq ▸ List.mem_map_of_mem FieldDecl.fname hf)

theorem loadStudentData_valAttr (c : LCCore) (db db2 : DB) (v : PyVal)
    (hA : c.studentDataAttr = .val v) :
    (loadStudentData c db).2.2 = db ∧
    (loadStudentData c db).1 = (loadStudentData c db2).1 ∧
    (loadStudentData c db).2.1 = (loadStudentData c db2).2.1 := by
  unfold loadStudentData studentDataGet
  by_cases h1 : c.sdLoaded = true
  · simp [h1]
  · by_cases h2 : c.fieldsToSave.isEmpty = true
    · simp [h1, h2]
    · by_cases h3 : pyTruthy v = true
      · rcases hjl : jsonLoads v with e | pv
        · simp [h1, h2, h3, hA, hjl]
        · cases pv <;> simp [h1, h2, h3, hA, hjl]
      · simp [h1, h2, h3, hA]

theorem saveOne_unnamed (c : LCCore) (db : DB) (h : c.name = "") :
    (saveOne c db).2.2 = db ∧
    ((saveOne c db).1 = Option.none ∨ (saveOne c db).1 = some PyErr.typeErr) := by
  obtain ⟨h1, h2, h3, h4, h5, h6, h7⟩ :=
    saveCollect_invariant c.fieldsToSave { c with studentDataAttr := .val (.dict []) } db [] rfl
  have hname : (saveCollect c.fieldsToSave
      { c with studentDataAttr := .val (.dict []) } db).2.1.name = "" := h3.trans h
  unfold saveOne
  dsimp only
  rcases h7 with h7 | h7
  · rw [h7]
    dsimp only
    rw [hname]
    simp [h1]
  · rw [h7]
    dsimp only
    exact ⟨h1, Or.inr rfl⟩

theorem saveOne_ok_state (c : LCCore) (db : DB) (hok : (saveOne c db).1 = Option.none) :
    (saveOne c db).2.1 =
      (saveCollect c.fieldsToSave { c with studentDataAttr := .val (.dict []) } db).2.1 ∧
    (saveCollect c.fieldsToSave { c with studentDataAttr := .val (.dict []) } db).1
      = Option.none := by
  obtain ⟨h1, h2, h3, h4, h5, h6, h7⟩ :=
    saveCollect_invariant c.fieldsToSave { c with studentDataAttr := .val (.dict []) } db [] rfl
  rcases h7 with h7 | h7
  · refine ⟨?_, h7⟩
    unfold saveOne
    dsimp only
    rw [h7]
    dsimp only
    split
    · rfl
    · split <;> rfl
  · unfold saveOne at hok
    dsimp only at hok
    rw [h7] at hok
    dsimp only at hok
    exact absurd hok (by simp)

theorem mergeFields_lookup_notin (fields : List FieldDecl) (m : List (String × PyVal))
    (c : LCCore) (k : String) (hk : k ∉ fields.map FieldDecl.fname) :
    (mergeFields fields m c).fieldData.lookup k = c.fieldData.lookup k := by
  induction fields generalizing c with
  | nil => rfl
  | cons f rest ih =>
    simp only [List.map_cons, List.mem_cons, not_or] at hk
    simp only [mergeFields]
    cases hm : m.lookup f.fname with
    | none => exact ih _ hk.2
    | some w =>
      rw [ih _ hk.2]
      exact alUpdate_lookup_ne f.fname k _ c.fieldData hk.1

theorem mergeFields_lookup (fields : List FieldDecl) (m : List (String × PyVal))
    (c : LCCore) (fld : FieldDecl) (hmem : fld ∈ fields)
    (hnd : (fields.map FieldDecl.fname).Nodup) (v : PyVal)
    (hv : m.lookup fld.fname = some v) :
    (mergeFields fields m c).fieldData.lookup fld.fname
      = some (coerceWrite fld.kind v) := by
  induction fields generalizing c with
  | nil => simp at hmem
  | cons f rest ih =>
    rw [List.map_cons] at hnd
    have hnd2 := List.nodup_cons.mp hnd
    rcases List.mem_cons.mp hmem with rfl | hmem2
    · simp only [mergeFields]
      rw [hv]
      rw [mergeFields_lookup_notin rest m _ fld.fname hnd2.1]
      exact alUpdate_lookup_self _ _ _
    · simp only [mergeFields]
      cases hm : m.lookup f.fname with
      | none => exact ih _ hmem2 hnd2.2
      | some w => exact ih _ hmem2 hnd2.2

theorem loadStudentData_merge (c : LCCore) (db : DB) (s : String)
    (m : List (String × PyVal)) (hA : c.studentDataAttr = .val (.str s))
    (hL : c.sdLoaded = false) (hf : c.fieldsToSave.isEmpty = false) (hs : s ≠ "")
    (hp : jsonParse s = some (.dict m)) :
    loadStudentData c db =
      (Option.none,
       { mergeFields c.fieldsToSave m { c with loadAttempts := c.loadAttempts + 1 } with
         sdLoaded := true }, db) := by
  unfold loadStudentData studentDataGet
  simp [hA, hL, hf, pyTruthy, hs, jsonLoads, hp]

theorem studentDataGet_val (c : LCCore) (db : DB) :
    (studentDataGet c db).1 = observedSD c db := by
  unfold studentDataGet observedSD
  split
  · rfl
  · split
    · rfl
    · cases h : db.rows.lookup (qualifiedName c c.name) <;> simp [getOrCreate, h]

theorem loadStudentData_of_noFields (c : LCCore) (db : DB)
    (h : c.fieldsToSave.isEmpty = true) :
    loadStudentData c db =
      (Option.none, { c with loadAttempts := c.loadAttempts + 1 }, db) := by
  unfold loadStudentData
  by_cases h1 : c.sdLoaded <;> simp [h1, h]

theorem mergeFields_lookup_nomem (fields : List FieldDecl) (m : List (String × PyVal))
    (c : LCCore) (k : String) (hk : m.lookup k = Option.none) :
    (mergeFields fields m c).fieldData.lookup k = c.fieldData.lookup k := by
  induction fields generalizing c with
  | nil => rfl
  | cons f rest ih =>
    simp only [mergeFields]
    cases hm : m.lookup f.fname with
    | none => exact ih _
    | some w =>
      rw [ih _]
      refine alUpdate_lookup_ne f.fname k _ c.fieldData ?_
      intro he
      rw [he] at hk
      rw [hm] at hk
      exact Option.noConfusion hk

theorem loadStudentData_observe (c : LCCore) (db : DB)
    (hL : c.sdLoaded = false) (hF : c.fieldsToSave.isEmpty = false) :
    (pyTruthy (observedSD c db) = false →
      (loadStudentData c db).1 = Option.none ∧
      (loadStudentData c db).2.1.fieldData = c.fieldData) ∧
    (∀ m, jsonLoads (observedSD c db) = .ok (.dict m) →
      (loadStudentData c db).1 = Option.none ∧
      ∃ c2 : LCCore, c2.fieldData = c.fieldData ∧
        (loadStudentData c db).2.1.fieldData
          = (mergeFields c.fieldsToSave m c2).fieldData) := by
  have hval : (studentDataGet { c with loadAttempts := c.loadAttempts + 1 } db).1
      = observedSD c db := studentDataGet_val _ db
  have hpres := studentDataGet_preserve { c with loadAttempts := c.loadAttempts + 1 } db
  constructor
  · intro hfal
    unfold loadStudentData
    dsimp only
    simp only [hL, hF, Bool.false_eq_true, if_false] at hval hpres ⊢
    simp only [hval, hfal, Bool.not_false, eq_self_iff_true, if_true]
    exact ⟨trivial, hpres.2.2.1⟩
  · intro m hjl
    have htru : pyTruthy (observedSD c db) = true := by
      cases hobs : observedSD c db
      case str s =>
        by_cases hse : s = ""
        · subst hse
          rw [hobs] at hjl
          exact Except.noConfusion hjl
        · simp [pyTruthy, hse]
      all_goals (rw [hobs] at hjl; exact Except.noConfusion hjl)
    unfold loadStudentData
    dsimp only
    simp only [hL, hF, Bool.false_eq_true, if_false] at hval hpres ⊢
    simp only [hval, htru, Bool.not_true, Bool.false_eq_true, if_false]
    rw [hjl]
    refine ⟨rfl, ⟨_, hpres.2.2.1, ?_⟩⟩
    dsimp only
    rw [hpres.2.2.2]

theorem fieldGet_write_noPending (fld : FieldDecl) (v : PyVal) (c : LCCore) (db : DB)
    (h : noPendingFor fld c db) :
    (fieldGet fld (writeField fld v c) db).1 = .ok (coerceWrite fld.kind v) := by
  by_cases hL : c.sdLoaded = true
  · unfold fieldGet
    rw [loadStudentData_of_loaded (writeField fld v c) db hL]
    dsimp only [writeField]
    rw [alUpdate_lookup_self]
    rfl
  · have hL2 : c.sdLoaded = false := by simpa using hL
    by_cases hF : c.fieldsToSave.isEmpty = true
    · unfold fieldGet
      rw [loadStudentData_of_noFields (writeField fld v c) db hF]
      dsimp only [writeField]
      rw [alUpdate_lookup_self]
      rfl
    · have hF2 : c.fieldsToSave.isEmpty = false := by simpa using hF
      rcases h with h | h | h | ⟨m, hjl, hnm⟩
      · exact absurd h hL
      · exact absurd (by rw [h]; rfl : c.fieldsToSave.isEmpty = true) hF
      · obtain ⟨he, hfd⟩ :=
          (loadStudentData_observe (writeField fld v c) db hL2 hF2).1 h
        unfold fieldGet
        dsimp only
        rw [he]
        dsimp only
        rw [hfd]
        dsimp only [writeField]
        rw [alUpdate_lookup_self]
        rfl
      · obtain ⟨he, c2, hcfd, hfd⟩ :=
          (loadStudentData_observe (writeField fld v c) db hL2 hF2).2 m hjl
        unfold fieldGet
        dsimp only
        rw [he]
        dsimp only
        rw [hfd, mergeFields_lookup_nomem _ m c2 fld.fname hnm, hcfd]
        dsimp only [writeField]
        rw [alUpdate_lookup_self]
        rfl

theorem fieldGet_write_pending (fld : FieldDecl) (v w : PyVal) (c : LCCore) (db : DB)
    (m : List (String × PyVal)) (hL : c.sdLoaded = false)
    (hmem : fld ∈ c.fieldsToSave)
    (hnd : (c.fieldsToSave.map FieldDecl.fname).Nodup)
    (hjl : jsonLoads (observedSD c db) = .ok (.dict m))
    (hw : m.lookup fld.fname = some w) :
    (fieldGet fld (writeField fld v c) db).1 = .ok (coerceWrite fld.kind w) := by
  have hF2 : c.fieldsToSave.isEmpty = false := by
    cases hfs : c.fieldsToSave with
    | nil => rw [hfs] at hmem; simp at hmem
    | cons a l => simp
  obtain ⟨he, c2, hcfd, hfd⟩ :=
    (loadStudentData_observe (writeField fld v c) db hL hF2).2 m hjl
  unfold fieldGet
  dsimp only
  rw [he]
  dsimp only
  rw [hfd, mergeFields_lookup ((writeField fld v c).fieldsToSave) m c2 fld hmem hnd w hw]
  rfl

theorem addChildrenE_names (env : BuildEnv) (p : String) (ns : List XmlNode) (i : Nat)
    (bs : List BuiltNode) (h : addChildrenE env p ns i = .ok bs) :
    bs.map BuiltNode.name =
      (List.enumFrom i ns).filterMap (fun q =>
        match q.2 with
        | XmlNode.elem _ _ _ _ => some (p ++ "_" ++ toString q.1)
        | _ => Option.none) ∧
    bs.length = (ns.filter (fun n => !n.isComment)).length := by
  induction ns generalizing i bs with
  | nil =>
    simp only [addChildrenE] at h
    obtain rfl : ([] : List BuiltNode) = bs := by simpa using h
    simp
  | cons n rest ih =>
    cases n with
    | comment s =>
      simp only [addChildrenE] at h
      have := ih (i + 1) bs h
      simpa [XmlNode.isComment, List.enumFrom] using this
    | elem tg attrs txt cs =>
      simp only [addChildrenE] at h
      cases hk : env.classKnown tg with
      | false => rw [hk] at h; simp at h
      | true =>
        rw [hk] at h
        simp only [if_true] at h
        cases hks : addChildrenE env (p ++ "_" ++ toString i) cs 0 with
        | error e => rw [hks] at h; simp at h
        | ok kids =>
          rw [hks] at h
          cases haa : applyAttrs (env.setAttr tg) attrs with
          | some e => rw [haa] at h; simp at h
          | none =>
            rw [haa] at h
            cases hrest : addChildrenE env p rest (i + 1) with
            | error e => rw [hrest] at h; simp at h
            | ok others =>
              rw [hrest] at h
              simp only [Except.ok.injEq] at h
              subst h
              obtain ⟨ih1, ih2⟩ := ih (i + 1) others hrest
              constructor
              · simpa [List.enumFrom, BuiltNode.name, XmlNode.isComment] using ih1
              · simpa [XmlNode.isComment] using ih2

theorem enumFrom_elem_names (p : String) (ns : List XmlNode) (i : Nat)
    (h : ∀ n ∈ ns, n.isComment = false) :
    (List.enumFrom i ns).filterMap (fun q =>
        match q.2 with
        | XmlNode.elem _ _ _ _ => some (p ++ "_" ++ toString q.1)
        | _ => Option.none)
      = (List.range' i ns.length).map (fun j => p ++ "_" ++ toString j) := by
  induction ns generalizing i with
  | nil => simp
  | cons n rest ih =>
    cases n with
    | comment s =>
      exact absurd (h (XmlNode.comment s) (List.mem_cons_self _ _))
        (by simp [XmlNode.isComment])
    | elem tg attrs txt cs =>
      simp only [List.enumFrom, List.filterMap_cons, List.length_cons, List.range',
        List.map_cons]
      rw [ih (i + 1) (fun n hn => h n (List.mem_cons_of_mem _ hn))]

end LightChildren

namespace LightChildren

/-- C1: the claim says `save()` writes the persisted row only when the row's
current decoded content differs from the new mapping of declared field
values, so that two successive saves with unchanged values perform exactly
one row write.  The code instead compares the row's JSON text — a Python
`str` — against the freshly built dict with `!=`, a comparison that is
always unequal, so every save with a set identity writes the row: at the
concrete fixture (node `q_0` of container `unit1`, one Integer field
`count = 42`, an initially empty store) both saves succeed and the write
counter reaches 2 where the claim requires 1. -/
theorem c1_save_twice_two_writes :
    (saveTree (.node cBase []) dbEmpty).1 = Option.none ∧
    (saveTree ((saveTree (.node cBase []) dbEmpty).2.1)
      ((saveTree (.node cBase []) dbEmpty).2.2)).1 = Option.none ∧
    ((saveTree ((saveTree (.node cBase []) dbEmpty).2.1)
      ((saveTree (.node cBase []) dbEmpty).2.2)).2.2).writes = 2 :=
  ⟨rfl, rfl, rfl⟩

/-- C2 counterexample: at a markup child list `<a/><!--x--><b/>` the builder
assigns the identities `p_0` and `p_2`, not `p_0` and `p_1` as the claim
states: `enumerate` indexes every markup child, comments included, so a
comment produces no child but does consume an index slot. -/
theorem c2_comment_consumes_slot :
    (addChildrenE envAllOk "p"
        [XmlNode.elem "a" [] "" [], XmlNode.comment "x", XmlNode.elem "b" [] "" []] 0)
      = .ok [BuiltNode.mk "p_0" "a" "" [], BuiltNode.mk "p_2" "b" "" []] ∧
    ["p_0", "p_2"] ≠ ["p_0", "p_1"] := by
  constructor
  · simp [addChildrenE, envAllOk, applyAttrs, contentOf]
    exact ⟨rfl, rfl⟩
  · decide

/-- C2 (amended): a successful build produces exactly one child per
non-comment element child, in document order; each element child's identity
is `{parent}_{i}` where `i` is the child's position among all markup
children, comments included — so comments produce no child but do consume an
index slot.  When the markup has no comment children (as after the
comment-stripping parse of stored markup), the identities are the
consecutive `{parent}_0 .. {parent}_{N-1}`. -/
theorem c2_children_names_amended (env : BuildEnv) (p : String) (ns : List XmlNode)
    (bs : List BuiltNode) (h : addChildrenE env p ns 0 = .ok bs) :
    bs.length = (ns.filter (fun n => !n.isComment)).length ∧
    bs.map BuiltNode.name =
      (List.enum ns).filterMap (fun q =>
        match q.2 with
        | XmlNode.elem _ _ _ _ => some (p ++ "_" ++ toString q.1)
        | _ => Option.none) ∧
    ((∀ n ∈ ns, n.isComment = false) →
      bs.map BuiltNode.name = (List.range ns.length).map (fun i => p ++ "_" ++ toString i)) := by
  obtain ⟨h1, h2⟩ := addChildrenE_names env p ns 0 bs h
  refine ⟨h2, by simpa [List.enum] using h1, ?_⟩
  intro hnc
  rw [h1, List.range_eq_range']
  exact enumFrom_elem_names p ns 0 hnc

/-- C2 amended, witnessed at the counterexample markup: two children with
identities `p_0` and `p_2`. -/
theorem c2_children_names_amended_witness :
    ([BuiltNode.mk "p_0" "a" "" [], BuiltNode.mk "p_2" "b" "" []].map BuiltNode.name
      = (List.enum
          [XmlNode.elem "a" [] "" [], XmlNode.comment "x", XmlNode.elem "b" [] "" []]).filterMap
            (fun q =>
              match q.2 with
              | XmlNode.elem _ _ _ _ => some ("p" ++ "_" ++ toString q.1)
              | _ => Option.none)) :=
  (c2_children_names_amended envAllOk "p"
    [XmlNode.elem "a" [] "" [], XmlNode.comment "x", XmlNode.elem "b" [] "" []]
    [BuiltNode.mk "p_0" "a" "" [], BuiltNode.mk "p_2" "b" "" []]
    (by simp [addChildrenE, envAllOk, applyAttrs, contentOf]; exact ⟨rfl, rfl⟩)).2.1

/-- C3 counterexample: `save()` on a node whose identity is unset returns
silently — no exception of any kind is raised and no row is written —
whereas the claim says it raises the configuration error. -/
theorem c3_save_unset_name_silent :
    (saveTree (.node cNoName []) dbEmpty).1 = Option.none ∧
    (saveTree (.node cNoName []) dbEmpty).2.2 = dbEmpty :=
  ⟨rfl, rfl⟩

/-- C3 (amended): `save()` on a node with an unset identity never raises the
configuration error (`ValueError`) and never writes or touches the row
store — the `if self.name` guard skips row resolution entirely; only calling
`get_lightchild_model_object` directly, with neither an explicit name
argument nor a set identity, raises `ValueError` and aborts row
resolution. -/
theorem c3_unset_name_amended (c : LCCore) (db : DB) (h : c.name = "") :
    (saveOne c db).2.2 = db ∧
    (saveOne c db).1 ≠ some PyErr.valueErr ∧
    (getLightchildModelObject c db "").1 = .error PyErr.valueErr := by
  obtain ⟨h1, h2⟩ := saveOne_unnamed c db h
  refine ⟨h1, ?_, ?_⟩
  · rcases h2 with h2 | h2 <;> simp [h2]
  · unfold getLightchildModelObject
    simp [h]

/-- C3 amended, witnessed at the concrete unnamed node. -/
theorem c3_unset_name_amended_witness :
    (saveOne cNoName dbEmpty).2.2 = dbEmpty ∧
    (saveOne cNoName dbEmpty).1 ≠ some PyErr.valueErr ∧
    (getLightchildModelObject cNoName dbEmpty "").1 = .error PyErr.valueErr :=
  c3_unset_name_amended cNoName dbEmpty rfl

/-- C4: the claim says build–save–rebuild–load round-trips all
JSON-representable field values.  The code cannot complete the round trip on
a freshly built node with two declared fields: while `save()` collects the
second field's value, the descriptor read triggers `load_student_data`,
which calls `json.loads` on `self.student_data` — at that point the
partially built dict, not text — raising `TypeError`.  At the concrete
fixture (fields `a = 1`, `b = 2` assigned from markup, store empty) the save
step of the round trip raises and performs no write. -/
theorem c4_roundtrip_save_raises :
    (saveTree (.node cTwoFields []) dbEmpty).1 = some PyErr.typeErr ∧
    ((saveTree (.node cTwoFields []) dbEmpty).2.2).writes = 0 :=
  ⟨rfl, rfl⟩

/-- C5: once the `_student_data_loaded` flag is set, `load_student_data` is a
no-op (only the invocation counter, which is instrumentation, moves);
reading a field through its descriptor triggers exactly one load attempt
(the counter increases by exactly one); writing a field never triggers a
load (the write is pure on the instance: the counter, the flag — and, by the
type of `writeField`, the row store — are untouched); and the merge of
persisted state into the field store happens at most once: a load can change
the field store only by switching the flag from unset to set. -/
theorem c5_load_once_read_write (c : LCCore) (db : DB) (fld : FieldDecl) (v : PyVal) :
    (c.sdLoaded = true →
      loadStudentData c db = (Option.none, { c with loadAttempts := c.loadAttempts + 1 }, db)) ∧
    (fieldGet fld c db).2.1.loadAttempts = c.loadAttempts + 1 ∧
    (writeField fld v c).loadAttempts = c.loadAttempts ∧
    (writeField fld v c).sdLoaded = c.sdLoaded ∧
    ((loadStudentData c db).2.1.fieldData ≠ c.fieldData →
      (loadStudentData c db).2.1.sdLoaded = true ∧ c.sdLoaded = false) := by
  have hfs : (fieldGet fld c db).2.1 = (loadStudentData c db).2.1 := by
    unfold fieldGet
    dsimp only
    split <;> rfl
  refine ⟨fun h => loadStudentData_of_loaded c db h, ?_, rfl, rfl, ?_⟩
  · rw [hfs]
    exact loadStudentData_loadAttempts c db
  · intro hne
    rcases loadStudentData_cases c db with hc | hc
    · exact absurd hc hne
    · exact hc

/-- C5, witnessed at a loaded node: the load is a no-op apart from the
instrumentation counter, and a read bumps the counter by exactly one. -/
theorem c5_load_once_read_write_witness :
    loadStudentData cLoaded dbEmpty
      = (Option.none, { cLoaded with loadAttempts := cLoaded.loadAttempts + 1 }, dbEmpty) ∧
    (fieldGet countFld cLoaded dbEmpty).2.1.loadAttempts = cLoaded.loadAttempts + 1 :=
  ⟨(c5_load_once_read_write cLoaded dbEmpty countFld (PyVal.int 1)).1 rfl,
   (c5_load_once_read_write cLoaded dbEmpty countFld (PyVal.int 1)).2.1⟩

/-- C6 counterexample: on a node instance with pending (not yet loaded)
persisted state `count = 7`, writing `"abc"` to the Integer field and then
reading does not return `0`: the read-triggered state load merges the
persisted `7` over the just-written value, so the read returns `7`. -/
theorem c6_pending_load_overrides_write :
    (fieldGet countFld (writeField countFld (PyVal.str "abc") cPending) dbPending).1
      = .ok (PyVal.int 7) ∧
    (Except.ok (PyVal.int 7) : Except PyErr PyVal) ≠ .ok (PyVal.int 0) := by
  refine ⟨rfl, ?_⟩
  intro h
  injection h with h1
  injection h1 with h2
  exact absurd h2 (by decide)

/-- C6 (amended): on a node instance that holds no pending persisted value
for the field — its per-student state is already merged, or it declares no
persisted fields, or the student data a load would observe is falsy (a
fresh node over an unset, absent or empty row), or that data decodes to a
mapping lacking the field — the descriptor coercions behave as claimed:
writing `"abc"` to the Integer field then reading returns `0`, writing
`"42"` then reading returns `42` (parse failures silently store `0`, never
raising); writing `"TRUE"` to the Boolean field yields true, `"no"` yields
false, and the non-textual `True` passes through unchanged.  On every
instance with pending unloaded persisted state for the field (state not yet
merged and the observed student data decoding to a mapping that contains
the field), the read-triggered load overwrites the just-written value with
the coerced persisted one. -/
theorem c6_coercion_amended (c : LCCore) (db : DB) (v2 w : PyVal)
    (fld2 : FieldDecl) (m : List (String × PyVal)) :
    (noPendingFor countFld c db →
      (fieldGet countFld (writeField countFld (PyVal.str "abc") c) db).1
        = .ok (PyVal.int 0)) ∧
    (noPendingFor countFld c db →
      (fieldGet countFld (writeField countFld (PyVal.str "42") c) db).1
        = .ok (PyVal.int 42)) ∧
    (noPendingFor flagFld c db →
      (fieldGet flagFld (writeField flagFld (PyVal.str "TRUE") c) db).1
        = .ok (PyVal.bool true)) ∧
    (noPendingFor flagFld c db →
      (fieldGet flagFld (writeField flagFld (PyVal.str "no") c) db).1
        = .ok (PyVal.bool false)) ∧
    (noPendingFor flagFld c db →
      (fieldGet flagFld (writeField flagFld (PyVal.bool true) c) db).1
        = .ok (PyVal.bool true)) ∧
    (c.sdLoaded = false → fld2 ∈ c.fieldsToSave →
      (c.fieldsToSave.map FieldDecl.fname).Nodup →
      jsonLoads (observedSD c db) = .ok (.dict m) → m.lookup fld2.fname = some w →
      (fieldGet fld2 (writeField fld2 v2 c) db).1 = .ok (coerceWrite fld2.kind w)) :=
  ⟨fun h => fieldGet_write_noPending countFld _ c db h,
   fun h => fieldGet_write_noPending countFld _ c db h,
   fun h => fieldGet_write_noPending flagFld _ c db h,
   fun h => fieldGet_write_noPending flagFld _ c db h,
   fun h => fieldGet_write_noPending flagFld _ c db h,
   fun hL hmem hnd hjl hw => fieldGet_write_pending fld2 v2 w c db m hL hmem hnd hjl hw⟩

/-- C6 amended, witnessed at a fresh node over an empty row store (no
pending persisted value: the observed student data is the empty blob) and,
for the overwrite clause, at the node whose cached student data holds the
pending mapping `count = 7`. -/
theorem c6_coercion_amended_witness :
    (fieldGet countFld (writeField countFld (PyVal.str "abc") cPending) dbEmpty).1
      = .ok (PyVal.int 0) ∧
    (fieldGet flagFld (writeField flagFld (PyVal.str "TRUE") cPending) dbEmpty).1
      = .ok (PyVal.bool true) ∧
    (fieldGet countFld (writeField countFld (PyVal.str "abc") cPendingCached) dbEmpty).1
      = .ok (coerceWrite countFld.kind (PyVal.int 7)) :=
  ⟨(c6_coercion_amended cPending dbEmpty (PyVal.int 0) (PyVal.int 0) countFld []).1
     (Or.inr (Or.inr (Or.inl rfl))),
   (c6_coercion_amended cPending dbEmpty (PyVal.int 0) (PyVal.int 0) countFld []).2.2.1
     (Or.inr (Or.inr (Or.inl rfl))),
   (c6_coercion_amended cPendingCached dbEmpty (PyVal.str "abc") (PyVal.int 7) countFld
      [("count", PyVal.int 7)]).2.2.2.2.2 rfl (by simp [cPendingCached, cPending])
      (by decide) rfl rfl⟩

/-- C7 counterexample: an assignment of the `url_name` markup attribute that
fails with an exception other than `AttributeError` (here `TypeError`) does
raise and aborts the build — only `AttributeError` is swallowed for
`url_name` — contradicting the claim that a failed `url_name` assignment
never raises. -/
theorem c7_url_name_typeerror_raises :
    applyAttrs setAttrUrlTypeErr [("url_name", "x")] = some PyErr.typeErr := rfl

/-- C7 (amended): during attribute application, an assignment of `url_name`
that fails with `AttributeError` is silently skipped and the loop continues;
an `AttributeError` on any other attribute name is re-raised and aborts the
build; and a failure of any kind other than `AttributeError` propagates for
every attribute name, `url_name` included. -/
theorem c7_attr_failure_amended (setA : String → String → Option PyErr)
    (rest : List (String × String)) (nm v : String) :
    (setA "url_name" v = some PyErr.attrErr →
      applyAttrs setA (("url_name", v) :: rest) = applyAttrs setA rest) ∧
    (nm ≠ "url_name" → setA nm v = some PyErr.attrErr →
      applyAttrs setA ((nm, v) :: rest) = some PyErr.attrErr) ∧
    (∀ e, e ≠ PyErr.attrErr → setA nm v = some e →
      applyAttrs setA ((nm, v) :: rest) = some e) := by
  refine ⟨?_, ?_, ?_⟩
  · intro h
    simp only [applyAttrs]
    rw [h]
    rfl
  · intro hne h
    simp only [applyAttrs]
    rw [h, show (nm == "url_name") = false from beq_eq_false_iff_ne.mpr hne]
    rfl
  · intro e he h
    simp only [applyAttrs]
    rw [h]
    cases e with
    | attrErr => exact absurd rfl he
    | typeErr => rfl
    | valueErr => rfl
    | lookupErr => rfl

/-- C7 amended, witnessed concretely: an `AttributeError` on `url_name` is
skipped, an `AttributeError` on another name propagates, and a `TypeError`
on `url_name` propagates. -/
theorem c7_attr_failure_amended_witness :
    applyAttrs setAttrAllAttrErr [("url_name", "v")] = applyAttrs setAttrAllAttrErr [] ∧
    applyAttrs setAttrAllAttrErr [("other", "v")] = some PyErr.attrErr ∧
    applyAttrs setAttrUrlTypeErr [("url_name", "v")] = some PyErr.typeErr :=
  ⟨(c7_attr_failure_amended setAttrAllAttrErr [] "other" "v").1 rfl,
   (c7_attr_failure_amended setAttrAllAttrErr [] "other" "v").2.1 (by decide) rfl,
   (c7_attr_failure_amended setAttrUrlTypeErr [] "url_name" "v").2.2 PyErr.typeErr
     (by decide) rfl⟩

/-- C8 counterexample: with empty stored markup the call is not a no-op —
it clears the container's existing child list before the guard returns. -/
theorem c8_rebuild_clears_children :
    loadChildrenFromXmlContent envAllOk contWithChild
      = .ok { contWithChild with lightChildren := [] } ∧
    contWithChild.lightChildren ≠ [] := by
  refine ⟨rfl, ?_⟩
  simp [contWithChild]

/-- C8 (amended): `load_children_from_xml_content` always resets the child
list to empty first; when `xml_content` is missing, empty, or callable it
stops there — the rest of the container's state is unchanged, no parse
happens — and otherwise it parses the stored markup with comments stripped
and rebuilds the full child tree via `init_block_from_node`, replacing any
previous tree. -/
theorem c8_rebuild_amended (env : BuildEnv) (s : ContainerState) :
    (xcNoContent s.xmlContent = true →
      loadChildrenFromXmlContent env s = .ok { s with lightChildren := [] }) ∧
    (∀ root, s.xmlContent = .stored root →
      loadChildrenFromXmlContent env s =
        match initBlockFromNode env s.ctag s.cname (stripComments root) with
        | .error e => .error e
        | .ok kids => .ok { s with lightChildren := kids }) := by
  constructor
  · intro h
    unfold loadChildrenFromXmlContent
    dsimp only
    rw [h]
    rfl
  · intro root hr
    unfold loadChildrenFromXmlContent
    dsimp only
    rw [hr]
    simp only [xcNoContent, Bool.false_eq_true, if_false]

/-- C8 amended, witnessed at two concrete containers: the guard case and the
rebuild case. -/
theorem c8_rebuild_amended_witness :
    loadChildrenFromXmlContent envAllOk contWithChild
      = .ok { contWithChild with lightChildren := [] } ∧
    loadChildrenFromXmlContent envAllOk contStored =
      match initBlockFromNode envAllOk contStored.ctag contStored.cname
          (stripComments (XmlNode.elem "mentoring" [] ""
            [XmlNode.comment "x", XmlNode.elem "a" [] "" []])) with
      | .error e => .error e
      | .ok kids => .ok { contStored with lightChildren := kids } :=
  ⟨(c8_rebuild_amended envAllOk contWithChild).1 rfl,
   (c8_rebuild_amended envAllOk contStored).2 _ rfl⟩

/-- C9: after `save()` returns on a node with a set identity, declared
persisted fields (with distinct names), the node's `student_data` attribute
holds the plain dict mapping each declared field name to its current value —
not a JSON-encoded string — so a subsequent `load_student_data` on the same
instance no longer observes the persisted JSON text: it neither touches the
row store nor depends on its contents in any way. -/
theorem c9_post_save_student_data (c : LCCore) (db : DB)
    (_hn : c.name ≠ "") (_hf : c.fieldsToSave ≠ [])
    (hnd : (c.fieldsToSave.map FieldDecl.fname).Nodup)
    (hok : (saveOne c db).1 = Option.none) :
    (saveOne c db).2.1.studentDataAttr = .val (.dict (collectVals c)) ∧
    (∀ db2, (loadStudentData ((saveOne c db).2.1) db2).2.2 = db2) ∧
    (∀ db2 db3,
      (loadStudentData ((saveOne c db).2.1) db2).1
        = (loadStudentData ((saveOne c db).2.1) db3).1 ∧
      (loadStudentData ((saveOne c db).2.1) db2).2.1
        = (loadStudentData ((saveOne c db).2.1) db3).2.1) := by
  obtain ⟨hstate, hcol⟩ := saveOne_ok_state c db hok
  have hattr := saveCollect_ok_attr c.fieldsToSave
    { c with studentDataAttr := .val (.dict []) } db [] rfl hcol
  have hfold := foldl_alUpdate_eq_map c.fieldsToSave c.fieldData [] (by simp) hnd
  have hmain : (saveOne c db).2.1.studentDataAttr = .val (.dict (collectVals c)) := by
    rw [hstate, hattr]
    dsimp only
    rw [hfold]
    simp [collectVals]
  refine ⟨hmain, ?_, ?_⟩
  · intro db2
    exact (loadStudentData_valAttr _ db2 db2 _ hmain).1
  · intro db2 db3
    exact ⟨(loadStudentData_valAttr _ db2 db3 _ hmain).2.1,
      (loadStudentData_valAttr _ db2 db3 _ hmain).2.2⟩

/-- C9, witnessed at the concrete node `cBase`: after a successful save the
`student_data` attribute is the plain mapping, and a subsequent load leaves
the row store untouched. -/
theorem c9_post_save_student_data_witness :
    (saveOne cBase dbEmpty).2.1.studentDataAttr = .val (.dict (collectVals cBase)) ∧
    (loadStudentData ((saveOne cBase dbEmpty).2.1) dbEmpty).2.2 = dbEmpty :=
  ⟨(c9_post_save_student_data cBase dbEmpty (by decide) (by simp [cBase]) (by decide) rfl).1,
   (c9_post_save_student_data cBase dbEmpty (by decide) (by simp [cBase]) (by decide) rfl).2.1
     dbEmpty⟩

/-- C10: a value merged from the persisted row for a declared field during
`load_student_data` is assigned through the field's descriptor and hence
undergoes its write coercion: after a merging load, the value readable at an
Integer field is an int — the literal `0` whenever the persisted value was
unparseable — the value at a Float field is a float (or the literal `0` for
an unparseable persisted value), and a persisted string merged into a
Boolean field becomes true exactly when it is `"true"` case-insensitively. -/
theorem c10_load_merge_coerces (c : LCCore) (db : DB) (fld : FieldDecl)
    (m : List (String × PyVal)) (v : PyVal) (s : String)
    (hmem : fld ∈ c.fieldsToSave)
    (hnd : (c.fieldsToSave.map FieldDecl.fname).Nodup)
    (hA : c.studentDataAttr = .val (.str s))
    (hp : jsonParse s = some (.dict m))
    (hL : c.sdLoaded = false)
    (hv : m.lookup fld.fname = some v) :
    (loadStudentData c db).2.1.fieldData.lookup fld.fname
      = some (coerceWrite fld.kind v) ∧
    (fld.kind = .kInteger → ∃ n : Int, coerceWrite fld.kind v = .int n) ∧
    (fld.kind = .kInteger → pyIntConv v = Option.none → coerceWrite fld.kind v = .int 0) ∧
    (fld.kind = .kFloat →
      (∃ q : Rat, coerceWrite fld.kind v = .float q) ∨ coerceWrite fld.kind v = .int 0) ∧
    (fld.kind = .kFloat → pyFloatConv v = Option.none → coerceWrite fld.kind v = .int 0) ∧
    (∀ s2, fld.kind = .kBoolean → v = .str s2 →
      coerceWrite fld.kind v = .bool (pyLower s2 == "true")) := by
  have hs : s ≠ "" := by
    intro hse
    rw [hse] at hp
    exact Option.noConfusion hp
  have hfe : c.fieldsToSave.isEmpty = false := by
    cases hfs : c.fieldsToSave with
    | nil => rw [hfs] at hmem; simp at hmem
    | cons a l => simp
  refine ⟨?_, ?_, ?_, ?_, ?_, ?_⟩
  · rw [loadStudentData_merge c db s m hA hL hfe hs hp]
    exact mergeFields_lookup c.fieldsToSave m _ fld hmem hnd v hv
  · intro hk
    rw [hk]
    unfold coerceWrite
    cases hic : pyIntConv v with
    | none => exact ⟨0, by simp [hic]⟩
    | some n => exact ⟨n, by simp [hic]⟩
  · intro hk hic
    rw [hk]
    unfold coerceWrite
    simp [hic]
  · intro hk
    rw [hk]
    unfold coerceWrite
    cases hfc : pyFloatConv v with
    | none => exact Or.inr (by simp [hfc])
    | some q => exact Or.inl ⟨q, by simp [hfc]⟩
  · intro hk hfc
    rw [hk]
    unfold coerceWrite
    simp [hfc]
  · intro s2 hk hveq
    subst hveq
    rw [hk]
    rfl

/-- C10, witnessed at the concrete node `cPendingCached` whose cached
`student_data` text decodes to `count = 7`. -/
theorem c10_load_merge_coerces_witness :
    (loadStudentData cPendingCached dbEmpty).2.1.fieldData.lookup countFld.fname
      = some (coerceWrite countFld.kind (PyVal.int 7)) ∧
    (∃ n : Int, coerceWrite countFld.kind (PyVal.int 7) = .int n) :=
  ⟨(c10_load_merge_coerces cPendingCached dbEmpty countFld [("count", PyVal.int 7)]
      (PyVal.int 7) (jsonDumps (PyVal.dict [("count", PyVal.int 7)]))
      (by simp [cPendingCached, cPending]) (by decide) rfl rfl rfl rfl).1,
   (c10_load_merge_coerces cPendingCached dbEmpty countFld [("count", PyVal.int 7)]
      (PyVal.int 7) (jsonDumps (PyVal.dict [("count", PyVal.int 7)]))
      (by simp [cPendingCached, cPending]) (by decide) rfl rfl rfl rfl).2.1 rfl⟩

end LightChildren
